import Mathlib

/-!
Shallow embedding of the chatapp backend's messaging core.

The embedding covers the document store (Users, Chats, Messages with the
unique index on `participantsKey` and on `_id`), the chat identity resolver
(find by pair key, optimistic insert, duplicate-key recovery) as it appears
in the socket `send_message` handler, `POST /`, `POST /upload` and
`POST /chat/create`, the message lifecycle handlers (`delete_message` /
`DELETE /:id`, `mark_message_read`), the reconciliation sweep
(`POST /chats/cleanup`), and the in-memory presence registry
(`activeUsers` map, connection / disconnect handlers).

Timestamps are naturals (milliseconds since epoch); Mongo ObjectIds are
strings, compared with string equality exactly as the source does via
`toString()`.  Each `await` on the store is an atomic interaction; handlers
are modelled as pure functions from a store snapshot to a result and an
updated store.
-/

instance instDecidableListPairwiseRel {α : Type} {R : α → α → Prop} [DecidableRel R] :
    ∀ l : List α, Decidable (List.Pairwise R l)
  | [] => .isTrue List.Pairwise.nil
  | _ :: l =>
    haveI := instDecidableListPairwiseRel (R := R) l
    decidable_of_iff _ (List.pairwise_cons).symm

/-- Message type discriminator from `messageSchema.messageType`
(`enum: ['text', 'image', 'file']`). -/
inductive MessageType where
  | text
  | image
  | file
deriving Repr, DecidableEq

/-- User document (the fields the messaging core reads and writes). -/
structure User where
  id : String
  username : String
  avatar : String
  isOnline : Bool
  lastSeen : Nat
deriving Repr, DecidableEq

/-- Chat document, following `chatSchema`: two participants, the derived
unique `participantsKey`, the denormalized last-message pointer and its
timestamp, the active flag, and the `timestamps: true` creation time.
`lastMessageAt` has schema default `Date.now`, and the delete handler can
set it to `null`, hence `Option`. -/
structure Chat where
  id : String
  participants : List String
  participantsKey : String
  lastMessage : Option String
  lastMessageAt : Option Nat
  isActive : Bool
  createdAt : Nat
deriving Repr, DecidableEq

/-- Message document, following `messageSchema`. -/
structure Message where
  id : String
  sender : String
  receiver : String
  content : String
  messageType : MessageType
  isRead : Bool
  readAt : Option Nat
  chatId : String
  createdAt : Nat
deriving Repr, DecidableEq

/-- The document store: Users, Chats, Messages collections. -/
structure Store where
  users : List User
  chats : List Chat
  messages : List Message
deriving Repr, DecidableEq

/-- Store error carrying the Mongo error code
(11000 = duplicate key on a unique index). -/
structure DbError where
  code : Nat
deriving Repr, DecidableEq

/-- Uploaded file as multer presents it to `POST /upload`. -/
structure UploadFile where
  filename : String
  mimetype : String
deriving Repr, DecidableEq

/-- The separator of the pair key (`sortedParticipants.join('_')`). -/
def sepUnd : String := "_"

/-- Lexicographic comparison of character lists by code point, the order JS
string comparison induces (identical to UTF-16 code-unit order on the
basic-multilingual-plane ids this system uses). -/
def charListLe : List Char → List Char → Bool
  | [], _ => true
  | _ :: _, [] => false
  | a :: as, b :: bs =>
    if a.toNat < b.toNat then true
    else if b.toNat < a.toNat then false
    else charListLe as bs

/-- JS string comparison `a <= b` as `Array.prototype.sort` applies it. -/
def strLe (a b : String) : Bool := charListLe a.data b.data

/-- JS `[a, b].sort()` on two strings: lexicographic order. -/
def sortedPair (a b : String) : List String :=
  if strLe a b then [a, b] else [b, a]

/-- Pair key computation shared by all four chat-resolution call sites and by
`chatSchema.pre('validate')`: sort the two ids, join with an underscore. -/
def participantsKeyOf (a b : String) : String :=
  String.intercalate sepUnd (sortedPair a b)

/-- Model of `User.findById(uid)`. -/
def findUser (s : Store) (uid : String) : Option User :=
  s.users.find? (fun u => u.id == uid)

/-- Model of `Chat.findOne({ participantsKey })`. -/
def findChatByKey (chats : List Chat) (k : String) : Option Chat :=
  chats.find? (fun c => c.participantsKey == k)

/-- Model of `Chat.findById(cid)`. -/
def findChatById (chats : List Chat) (cid : String) : Option Chat :=
  chats.find? (fun c => c.id == cid)

/-- Model of `Message.findById(mid)`. -/
def findMessageById (msgs : List Message) (mid : String) : Option Message :=
  msgs.find? (fun m => m.id == mid)

/-- Construction of `new Chat({ participants, isActive: true })` combined with
the `chatSchema.pre('validate')` hook, which sorts the participants and
computes `participantsKey`; `lastMessageAt` takes its schema default
`Date.now` and `createdAt` comes from `timestamps: true`. -/
def mkChat (cid a b : String) (now : Nat) : Chat :=
  { id := cid
    participants := sortedPair a b
    participantsKey := participantsKeyOf a b
    lastMessage := none
    lastMessageAt := some now
    isActive := true
    createdAt := now }

/-- Construction of `new Message({...})` with schema defaults
(`isRead: false`, no `readAt`) and the `timestamps: true` creation time. -/
def mkMessage (mid a b content : String) (mt : MessageType) (cid : String) (now : Nat) : Message :=
  { id := mid
    sender := a
    receiver := b
    content := content
    messageType := mt
    isRead := false
    readAt := none
    chatId := cid
    createdAt := now }

/-- Mongo duplicate-key error. -/
def dupKeyErr : DbError := { code := 11000 }

/-- Model of `chat.save()` on a new document: Mongo enforces the unique index
on `_id` and the unique index on `participantsKey` declared by `chatSchema`,
raising error code 11000 on a violation. -/
def insertChat (s : Store) (c : Chat) : Except DbError Store :=
  if s.chats.any (fun x => x.id == c.id) then .error dupKeyErr
  else if s.chats.any (fun x => x.participantsKey == c.participantsKey) then .error dupKeyErr
  else .ok { s with chats := s.chats ++ [c] }

/-- Chat identity resolver as it appears in the socket `send_message`
handler, `POST /` and `POST /upload`: find by pair key; if absent, insert a
new chat; on a duplicate-key error (code 11000) re-read by pair key and
return the existing chat, re-throwing if the re-read still finds nothing;
any other error propagates. -/
def findOrCreateChat (s : Store) (a b cid : String) (now : Nat) :
    Except DbError (Chat × Store) :=
  let key := participantsKeyOf a b
  match findChatByKey s.chats key with
  | some chat => .ok (chat, s)
  | none =>
    let c := mkChat cid a b now
    match insertChat s c with
    | .ok s1 => .ok (c, s1)
    | .error e =>
      if e.code == 11000 then
        match findChatByKey s.chats key with
        | some chat => .ok (chat, s)
        | none => .error e
      else .error e

/-- Control flow of the resolver in `send_message`, `POST /` and
`POST /upload`, with the store's reply to each of the three awaits
(`findOne`, `save`, re-`findOne`) abstracted as an input.  Concurrent
writers can change the store between the awaits, so the three replies are
independent: in particular `save` can fail with code 11000 even though the
first `findOne` observed no chat. -/
def resolveFromOutcomes (found : Option Chat) (saved : Except DbError Chat)
    (reread : Option Chat) : Except DbError Chat :=
  match found with
  | some chat => .ok chat
  | none =>
    match saved with
    | .ok chat => .ok chat
    | .error e =>
      if e.code == 11000 then
        match reread with
        | some chat => .ok chat
        | none => .error e
      else .error e

/-- Control flow of the resolver in `POST /chat/create`, same three awaits.
This path does not re-throw when the re-read after a duplicate-key error
finds nothing: `chat` stays `null` and the subsequent
`chat.populate(...)` throws, which the catch-all turns into a 500 —
so `none` here means the route surfaces a failure. -/
def chatCreateResolve (found : Option Chat) (saved : Except DbError Chat)
    (reread : Option Chat) : Option Chat :=
  match found with
  | some chat => some chat
  | none =>
    match saved with
    | .ok chat => some chat
    | .error e => if e.code == 11000 then reread else none

/-- Model of `chat.save()` on an existing document: write the document back
over the stored document with the same `_id`. -/
def updateChat (chats : List Chat) (c' : Chat) : List Chat :=
  chats.map (fun c => if c.id == c'.id then c' else c)

/-- Result of the send-message handlers as seen by the caller. -/
inductive SendOutcome where
  | sent (m : Message)
  | receiverNotFound
  | sendError
deriving Repr, DecidableEq

/-- The socket `send_message` handler and `POST /` (identical logic):
validate the receiver exists, resolve the chat by pair key (creating it if
absent, with duplicate-key recovery), persist the message, then repoint the
chat's `lastMessage` / `lastMessageAt` and save the chat.  `mid` and `cid`
are the ObjectIds Mongo assigns to the new message and (if created) chat;
`now` is the current time. -/
def sendMessage (s : Store) (a b content : String) (mt : MessageType)
    (mid cid : String) (now : Nat) : SendOutcome × Store :=
  match findUser s b with
  | none => (.receiverNotFound, s)
  | some _ =>
    match findOrCreateChat s a b cid now with
    | .error _ => (.sendError, s)
    | .ok (chat, s1) =>
      let msg := mkMessage mid a b content mt chat.id now
      let s2 := { s1 with messages := s1.messages ++ [msg] }
      let chat' := { chat with lastMessage := some msg.id, lastMessageAt := some now }
      (.sent msg, { s2 with chats := updateChat s2.chats chat' })

/-- URL path segment used by `POST /upload` when building the content. -/
def uploadsSeg : String := "/uploads/messages/"

/-- MIME type marker checked by `POST /upload`. -/
def imageSlash : String := "image/"

/-- The `POST /upload` handler: require a receiver id (falsy check), validate
the receiver exists, resolve the chat exactly as `sendMessage` does, then —
only after the chat has been resolved or created — require the file; build
the content URL, derive the message type from the MIME type, persist the
message and repoint the chat's last message. -/
def uploadMessage (s : Store) (a b : String) (file : Option UploadFile)
    (mid cid : String) (now : Nat) (baseUrl : String) : SendOutcome × Store :=
  if b == "" then (.sendError, s)
  else
    match findUser s b with
    | none => (.receiverNotFound, s)
    | some _ =>
      match findOrCreateChat s a b cid now with
      | .error _ => (.sendError, s)
      | .ok (chat, s1) =>
        match file with
        | none => (.sendError, s1)
        | some f =>
          let content := baseUrl ++ uploadsSeg ++ f.filename
          let mt := if f.mimetype.startsWith imageSlash then MessageType.image else MessageType.file
          let msg := mkMessage mid a b content mt chat.id now
          let s2 := { s1 with messages := s1.messages ++ [msg] }
          let chat' := { chat with lastMessage := some msg.id, lastMessageAt := some now }
          (.sent msg, { s2 with chats := updateChat s2.chats chat' })

/-- Result of `POST /chat/create` as seen by the caller. -/
inductive CreateOutcome where
  | created (chat : Chat)
  | receiverNotFound
  | participantError
  | serverError
deriving Repr, DecidableEq

/-- The tail of `POST /chat/create` after a chat is in hand: populate the
participants (a participant id that resolves to no user becomes `null` and
makes the `.find` callback throw, caught as a 500), then pick the
participant different from the sender, failing with a 500-style error when
there is none. -/
def createChatFinish (s : Store) (a : String) (chat : Chat) (st : Store) :
    CreateOutcome × Store :=
  if chat.participants.any (fun p => (findUser s p).isNone) then (.serverError, st)
  else
    match chat.participants.find? (fun p => !(p == a)) with
    | some _ => (.created chat, st)
    | none => (.participantError, st)

/-- The `POST /chat/create` handler: validate the receiver exists, find the
chat by pair key, insert if absent; on a duplicate-key error re-read by pair
key (without re-throwing when the re-read finds nothing — the later
`populate` on `null` then throws and the catch-all answers 500); any other
error is caught as a 500. -/
def createChatRoute (s : Store) (a b cid : String) (now : Nat) :
    CreateOutcome × Store :=
  match findUser s b with
  | none => (.receiverNotFound, s)
  | some _ =>
    let key := participantsKeyOf a b
    match findChatByKey s.chats key with
    | some chat => createChatFinish s a chat s
    | none =>
      let c := mkChat cid a b now
      match insertChat s c with
      | .ok s1 => createChatFinish s a c s1
      | .error e =>
        if e.code == 11000 then
          match findChatByKey s.chats key with
          | some chat => createChatFinish s a chat s
          | none => (.serverError, s)
        else (.serverError, s)

/-- Model of `Message.find({ chatId }).sort({ createdAt: -1 }).limit(1)`:
the most recent message of the chat (first document in descending
`createdAt` order; earlier-stored documents win ties). -/
def latestMessageFor (msgs : List Message) (cid : String) : Option Message :=
  (msgs.filter (fun m => m.chatId == cid)).foldl
    (fun best m =>
      match best with
      | none => some m
      | some b => if m.createdAt > b.createdAt then some m else some b)
    none

/-- Result of the delete-message handlers as seen by the caller. -/
inductive DeleteOutcome where
  | deleted
  | msgNotFound
  | notAuthorized
deriving Repr, DecidableEq

/-- The `DELETE /:id` route (the socket `delete_message` handler is the same
logic with the chat id taken from the client): look up the message; reject
if absent; reject unless the requester is the sender; `deleteOne` the
message; then re-read the chat with `populate("lastMessage")` — the pointer
is resolved against the messages that remain AFTER the deletion, so a
pointer to the just-deleted message populates to `null` — and only if the
populated last message's id equals the deleted id, recompute the pointer
from the most recent remaining message of the chat (clearing both fields
when none remains) and save the chat. -/
def deleteMessage (s : Store) (requester mid : String) : DeleteOutcome × Store :=
  match findMessageById s.messages mid with
  | none => (.msgNotFound, s)
  | some msg =>
    if !(msg.sender == requester) then (.notAuthorized, s)
    else
      let s1 := { s with messages := s.messages.eraseP (fun m => m.id == mid) }
      match findChatById s1.chats msg.chatId with
      | none => (.deleted, s1)
      | some chat =>
        match chat.lastMessage.bind (findMessageById s1.messages) with
        | some lm =>
          if lm.id == mid then
            let latest := latestMessageFor s1.messages msg.chatId
            let chat' :=
              match latest with
              | some lmsg => { chat with lastMessage := some lmsg.id, lastMessageAt := some lmsg.createdAt }
              | none => { chat with lastMessage := none, lastMessageAt := none }
            (.deleted, { s1 with chats := updateChat s1.chats chat' })
          else (.deleted, s1)
        | none => (.deleted, s1)

/-- The socket `mark_message_read` handler:
`Message.findByIdAndUpdate(messageId, { isRead: true, readAt: new Date() })`
— the update is unconditional, so `readAt` is overwritten with the current
time even when the message is already read; an absent message is a benign
no-op. -/
def markRead (s : Store) (mid : String) (now : Nat) : Option Message × Store :=
  match findMessageById s.messages mid with
  | none => (none, s)
  | some m =>
    let m' := { m with isRead := true, readAt := some now }
    (some m', { s with messages := s.messages.map (fun x => if x.id == mid then m' else x) })

/-- Orphan test of the cleanup sweep: `populate("participants", "_id")`
leaves `null` for a participant id that resolves to no user, and the sweep
flags a chat with any `null` participant. -/
def isOrphan (s : Store) (c : Chat) : Bool :=
  c.participants.any (fun p => (findUser s p).isNone)

/-- Insertion step of building the duplicate map's key order: a JS `Map`
iterates its keys in insertion order. -/
def insertKey (ks : List String) (k : String) : List String :=
  if ks.contains k then ks else ks ++ [k]

/-- Pair keys of the surviving chats in first-encounter order, as the
`duplicateChats` map of the sweep collects them. -/
def keysInOrder (cs : List Chat) : List String :=
  cs.foldl (fun ks c => insertKey ks c.participantsKey) []

/-- Recency of a chat in the sweep: `a.lastMessageAt || a.createdAt || 0`
(a Date object is always truthy, so the fallback only fires on a
null / missing `lastMessageAt`). -/
def chatSortTime (c : Chat) : Nat :=
  c.lastMessageAt.getD c.createdAt

/-- Insertion step of a stable descending sort by `chatSortTime`, matching
`chats.sort((a, b) => bTime - aTime)` (JS `sort` is stable and swaps exactly
when the comparator is positive). -/
def insertByTime (c : Chat) : List Chat → List Chat
  | [] => [c]
  | x :: xs =>
    if chatSortTime x < chatSortTime c then c :: x :: xs else x :: insertByTime c xs

/-- Stable descending sort of a duplicate group by recency. -/
def sortChatsDesc (cs : List Chat) : List Chat :=
  cs.foldl (fun acc c => insertByTime c acc) []

/-- Duplicate resolution of the sweep: for each pair key held by more than
one surviving chat, keep the most recent chat and pair every other chat's id
with the kept chat's id. -/
def dupPairsOf (grouped : List Chat) : List (String × String) :=
  (keysInOrder grouped).foldl
    (fun acc k =>
      let g := grouped.filter (fun c => c.participantsKey == k)
      if 1 < g.length then
        match sortChatsDesc g with
        | [] => acc
        | keep :: dups => acc ++ dups.map (fun d => (d.id, keep.id))
      else acc)
    []

/-- Model of the per-key
`Message.updateMany({ chatId: { $in: duplicateChatIds } }, { chatId: keepChat._id })`
calls: a message whose chat is a discarded duplicate is repointed to the
kept chat of that duplicate's group. -/
def reassignMessages (msgs : List Message) (prs : List (String × String)) : List Message :=
  msgs.map (fun m =>
    match prs.find? (fun pr => pr.1 == m.chatId) with
    | some pr => { m with chatId := pr.2 }
    | none => m)

/-- Model of `Chat.updateMany({ _id: { $in: ids } }, { isActive: false })`,
also used by the background deactivation of `GET /chats/list`. -/
def deactivateChats (chats : List Chat) (ids : List String) : List Chat :=
  chats.map (fun c => if ids.contains c.id then { c with isActive := false } else c)

/-- The `POST /chats/cleanup` sweep: over the active chats, flag orphans
(some participant resolves to no user); group the rest by pair key; in every
group of more than one, keep the most recent chat, reassign the messages of
the others to it; finally deactivate all flagged chats. -/
def cleanup (s : Store) : Store :=
  let allChats := s.chats.filter (fun c => c.isActive)
  let orphanedIds := (allChats.filter (isOrphan s)).map (fun c => c.id)
  let grouped := allChats.filter (fun c => !(isOrphan s c))
  let prs := dupPairsOf grouped
  let deact := orphanedIds ++ prs.map (fun pr => pr.1)
  { s with
    messages := reassignMessages s.messages prs
    chats := deactivateChats s.chats deact }

/-- Presence events broadcast by the connection lifecycle. -/
inductive PresenceEvent where
  | userOnline (uid : String)
  | userOffline (uid : String)
deriving Repr, DecidableEq

/-- JS `Map.prototype.set` on the `activeUsers` map keyed by user id: a
second session of the same user OVERWRITES the first (last-wins), so the
registry holds at most one socket per user. -/
def mapSet (m : List (String × String)) (k v : String) : List (String × String) :=
  if m.any (fun p => p.1 == k) then m.map (fun p => if p.1 == k then (k, v) else p)
  else m ++ [(k, v)]

/-- JS `Map.prototype.delete` on the `activeUsers` map. -/
def mapDelete (m : List (String × String)) (k : String) : List (String × String) :=
  m.filter (fun p => !(p.1 == k))

/-- Model of `User.findByIdAndUpdate(uid, { isOnline, lastSeen })`. -/
def updateUserPresence (users : List User) (uid : String) (online : Bool) (now : Nat) :
    List User :=
  users.map (fun u => if u.id == uid then { u with isOnline := online, lastSeen := now } else u)

/-- The `io.on('connection')` prologue: record the socket in `activeUsers`
(last-wins), mark the user online, broadcast `user_online` to everyone
else. -/
def onConnect (s : Store) (reg : List (String × String)) (uid sid : String) (now : Nat) :
    Store × List (String × String) × List PresenceEvent :=
  ({ s with users := updateUserPresence s.users uid true now },
   mapSet reg uid sid,
   [PresenceEvent.userOnline uid])

/-- The socket `disconnect` handler: delete the user's registry entry, mark
the user offline, broadcast `user_offline` — all UNCONDITIONALLY, with no
check for other live sessions of the same user. -/
def onDisconnect (s : Store) (reg : List (String × String)) (uid : String) (now : Nat) :
    Store × List (String × String) × List PresenceEvent :=
  ({ s with users := updateUserPresence s.users uid false now },
   mapDelete reg uid,
   [PresenceEvent.userOffline uid])

/-- Online flag of a user as the store records it. -/
def userOnlineB (s : Store) (uid : String) : Bool :=
  match findUser s uid with
  | some u => u.isOnline
  | none => false

/-- Claimed invariant: no two stored chats are both active with the same
pair key. -/
@[reducible] def chatKeysOk (l : List Chat) : Prop :=
  l.Pairwise (fun c1 c2 =>
    c1.isActive = true → c2.isActive = true → c1.participantsKey ≠ c2.participantsKey)

/-- Well-formedness provided by Mongo's mandatory unique `_id` index on the
chats collection. -/
@[reducible] def chatIdsOk (l : List Chat) : Prop :=
  (l.map (fun c => c.id)).Nodup

/-- Well-formedness provided by Mongo's mandatory unique `_id` index on the
messages collection. -/
@[reducible] def msgIdsOk (l : List Message) : Prop :=
  (l.map (fun m => m.id)).Nodup

/-- Store states reachable by the program: distinct chat ids and at most one
active chat per pair key. -/
@[reducible] def StoreOk (s : Store) : Prop :=
  chatIdsOk s.chats ∧ chatKeysOk s.chats

/-- One store-mutating operation of the backend, at handler granularity.
Fresh ObjectIds (`mid`, `cid`) are parameters: the uniqueness theorems never
assume them fresh, because the store's `_id` index rejects stale ones. -/
inductive StoreOp where
  | opSend (a b content : String) (mt : MessageType) (mid cid : String) (now : Nat)
  | opUpload (a b : String) (file : Option UploadFile) (mid cid : String) (now : Nat) (baseUrl : String)
  | opCreate (a b cid : String) (now : Nat)
  | opDelete (requester mid : String)
  | opMarkRead (mid : String) (now : Nat)
  | opCleanup
  | opDeactivate (ids : List String)

/-- Effect of one operation on the store. -/
def applyOp (s : Store) : StoreOp → Store
  | .opSend a b content mt mid cid now => (sendMessage s a b content mt mid cid now).2
  | .opUpload a b file mid cid now baseUrl => (uploadMessage s a b file mid cid now baseUrl).2
  | .opCreate a b cid now => (createChatRoute s a b cid now).2
  | .opDelete requester mid => (deleteMessage s requester mid).2
  | .opMarkRead mid now => (markRead s mid now).2
  | .opCleanup => cleanup s
  | .opDeactivate ids => { s with chats := deactivateChats s.chats ids }

/-- Effect of a sequence of operations. -/
def applyOps (s : Store) (ops : List StoreOp) : Store :=
  ops.foldl applyOp s

/-- Concrete user id used by the concrete test stores below. -/
def idA : String := "a"

/-- Concrete user id used by the concrete test stores below. -/
def idB : String := "b"

/-- Concrete chat ObjectId. -/
def cid1 : String := "c1"

/-- Concrete chat ObjectId. -/
def cid2 : String := "c2"

/-- Concrete message ObjectId. -/
def mid1 : String := "m1"

/-- Concrete message ObjectId. -/
def mid2 : String := "m2"

/-- Concrete socket id. -/
def sid1 : String := "s1"

/-- Concrete socket id. -/
def sid2 : String := "s2"

/-- Concrete message body. -/
def helloTxt : String := "hi"

/-- Concrete user record. -/
def uAlice : User :=
  { id := idA, username := "alice", avatar := "", isOnline := false, lastSeen := 0 }

/-- Concrete user record. -/
def uBob : User :=
  { id := idB, username := "bob", avatar := "", isOnline := false, lastSeen := 0 }

/-- Concrete chat between `idA` and `idB` whose recorded last message is
`mid2`. -/
def chatAB : Chat :=
  { id := cid1
    participants := [idA, idB]
    participantsKey := participantsKeyOf idA idB
    lastMessage := some mid2
    lastMessageAt := some 2
    isActive := true
    createdAt := 0 }

/-- Concrete older message of `chatAB`. -/
def msgOne : Message :=
  { id := mid1, sender := idA, receiver := idB, content := "one",
    messageType := .text, isRead := false, readAt := none, chatId := cid1, createdAt := 1 }

/-- Concrete newer message of `chatAB`, the chat's recorded last message. -/
def msgTwo : Message :=
  { id := mid2, sender := idA, receiver := idB, content := "two",
    messageType := .text, isRead := false, readAt := none, chatId := cid1, createdAt := 2 }

/-- Concrete store: two users, one chat, two messages. -/
def storeAB : Store :=
  { users := [uAlice, uBob], chats := [chatAB], messages := [msgOne, msgTwo] }

/-- Concrete store with two users and no chats. -/
def storeUsers : Store :=
  { users := [uAlice, uBob], chats := [], messages := [] }

/-- Concrete store with a single user and no chats. -/
def storeSolo : Store :=
  { users := [uAlice], chats := [], messages := [] }

/-- Concrete INACTIVE chat between `idA` and `idB` with no messages. -/
def chatInact : Chat :=
  { id := cid1
    participants := [idA, idB]
    participantsKey := participantsKeyOf idA idB
    lastMessage := none
    lastMessageAt := some 0
    isActive := false
    createdAt := 0 }

/-- Concrete store whose only chat for the pair is inactive. -/
def storeInact : Store :=
  { users := [uAlice, uBob], chats := [chatInact], messages := [] }

/-- Concrete duplicate chat pair: the older duplicate. -/
def chatDupOld : Chat :=
  { id := cid1
    participants := [idA, idB]
    participantsKey := participantsKeyOf idA idB
    lastMessage := some mid1
    lastMessageAt := some 5
    isActive := true
    createdAt := 0 }

/-- Concrete duplicate chat pair: the more recently active duplicate. -/
def chatDupNew : Chat :=
  { id := cid2
    participants := [idA, idB]
    participantsKey := participantsKeyOf idA idB
    lastMessage := some mid2
    lastMessageAt := some 9
    isActive := true
    createdAt := 1 }

/-- Concrete store holding two active chats with the same pair key (a
pre-existing duplicate, as imported legacy data could produce). -/
def storeDup : Store :=
  { users := [uAlice, uBob]
    chats := [chatDupOld, chatDupNew]
    messages := [{ msgOne with chatId := cid1 }, { msgTwo with chatId := cid2 }] }

/-- Concrete id that resolves to no user in any concrete store here. -/
def idZ : String := "z"

/-- Empty string (absent or blank request field). -/
def emptyStr : String := ""

lemma intercalate_pair (x y : String) :
    String.intercalate sepUnd [x, y] = x ++ sepUnd ++ y := by
  simp [String.intercalate, String.intercalate.go]

lemma char_toNat_inj (a b : Char) (h : a.toNat = b.toNat) : a = b := by
  have hv : a.val = b.val := by
    unfold Char.toNat at h
    exact UInt32.ext h
  cases a
  cases b
  simp_all

lemma string_data_inj (a b : String) (h : a.data = b.data) : a = b := by
  cases a
  cases b
  simp_all

lemma charListLe_total (as bs : List Char) (h : charListLe as bs = false) :
    charListLe bs as = true := by
  induction as generalizing bs with
  | nil => simp [charListLe] at h
  | cons a as ih =>
    cases bs with
    | nil => simp [charListLe]
    | cons b bs =>
      by_cases h1 : a.toNat < b.toNat
      · simp [charListLe, h1] at h
      · by_cases h2 : b.toNat < a.toNat
        · simp [charListLe, h2]
        · have h3 : charListLe as bs = false := by
            simpa [charListLe, h1, h2] using h
          simpa [charListLe, h1, h2] using ih bs h3

lemma charListLe_antisymm (as bs : List Char) (h1 : charListLe as bs = true)
    (h2 : charListLe bs as = true) : as = bs := by
  induction as generalizing bs with
  | nil =>
    cases bs with
    | nil => rfl
    | cons b bs => simp [charListLe] at h2
  | cons a as ih =>
    cases bs with
    | nil => simp [charListLe] at h1
    | cons b bs =>
      by_cases ha : a.toNat < b.toNat
      · have hb : ¬ b.toNat < a.toNat := Nat.lt_asymm ha
        simp [charListLe, ha, hb] at h2
      · by_cases hb : b.toNat < a.toNat
        · simp [charListLe, ha, hb] at h1
        · have heq : a = b :=
            char_toNat_inj a b (Nat.le_antisymm (Nat.le_of_not_lt hb) (Nat.le_of_not_lt ha))
          have h1' : charListLe as bs = true := by simpa [charListLe, ha, hb] using h1
          have h2' : charListLe bs as = true := by simpa [charListLe, ha, hb] using h2
          rw [heq, ih bs h1' h2']

lemma strLe_total (a b : String) (h : strLe a b = false) : strLe b a = true :=
  charListLe_total a.data b.data h

lemma strLe_antisymm (a b : String) (h1 : strLe a b = true) (h2 : strLe b a = true) : a = b :=
  string_data_inj a b (charListLe_antisymm a.data b.data h1 h2)

/-- C6: the pair key computation is deterministic and commutative: for every
two user identities `a` and `b`, the key derived for `(a, b)` equals the key
derived for `(b, a)`, and both equal the lexicographically sorted pair
joined with the underscore separator. -/
theorem pair_key_commutative (a b : String) :
    participantsKeyOf a b = participantsKeyOf b a ∧
    participantsKeyOf a b = (if strLe a b then a ++ sepUnd ++ b else b ++ sepUnd ++ a) := by
  constructor
  · unfold participantsKeyOf sortedPair
    by_cases h1 : strLe a b
    · by_cases h2 : strLe b a
      · have hab : a = b := strLe_antisymm a b h1 h2
        subst hab
        rfl
      · rw [if_pos h1, if_neg h2]
    · have h2 : strLe b a = true := strLe_total a b (by simpa using h1)
      rw [if_neg h1, if_pos h2]
  · unfold participantsKeyOf sortedPair
    by_cases h1 : strLe a b
    · rw [if_pos h1, if_pos h1, intercalate_pair]
    · rw [if_neg h1, if_neg h1, intercalate_pair]

/-- C2: in every chat-resolution path, a duplicate-key failure (code 11000)
of the optimistic insert is recovered by the re-read: the resolver answers
with the re-read chat and surfaces a failure exactly when the re-read still
finds nothing; any non-duplicate-key error propagates; and a chat found up
front is returned without touching the insert path.  (`chatCreateResolve`
is the `POST /chat/create` variant, where `none` is the surfaced 500.) -/
theorem chat_conflict_recovery (e : DbError) (rr : Option Chat) (c0 : Chat)
    (saved : Except DbError Chat) :
    resolveFromOutcomes none (Except.error e) rr =
      (if e.code = 11000 then
        match rr with
        | some c => Except.ok c
        | none => Except.error e
       else Except.error e) ∧
    resolveFromOutcomes (some c0) saved rr = Except.ok c0 ∧
    chatCreateResolve none (Except.error e) rr = (if e.code = 11000 then rr else none) ∧
    chatCreateResolve (some c0) saved rr = some c0 := by
  refine ⟨?_, rfl, ?_, rfl⟩
  · unfold resolveFromOutcomes
    by_cases h : e.code = 11000
    · simp [h]
    · simp [h]
  · unfold chatCreateResolve
    by_cases h : e.code = 11000
    · simp [h]
    · simp [h]

/-- C3 evidence: deleting the chat's recorded last message (`msgTwo`) by its
sender removes the message but leaves the chat's `lastMessage` pointer still
aimed at the deleted id: `Chat.findById(chatId).populate("lastMessage")`
runs after `Message.deleteOne`, so the populated pointer is `null` and the
recompute branch never fires. -/
theorem delete_last_message_pointer_dangling :
    deleteMessage storeAB idA mid2 =
      (DeleteOutcome.deleted, { storeAB with messages := [msgOne] }) ∧
    (deleteMessage storeAB idA mid2).2.chats = [chatAB] ∧
    chatAB.lastMessage = some mid2 ∧
    findMessageById (deleteMessage storeAB idA mid2).2.messages mid2 = none := by
  refine ⟨by decide, by decide, by decide, by decide⟩

/-- C7 counterexample: `idA` registers two live sessions (`sid1`, then
`sid2`, which evicts `sid1` from the last-wins map), then ONE of them
disconnects: the user's online flag is cleared and `user_offline` is
broadcast even though another session was registered after the first. -/
theorem multi_session_disconnect_marks_offline :
    (onConnect storeUsers [] idA sid1 0).2.1 = [(idA, sid1)] ∧
    (onConnect (onConnect storeUsers [] idA sid1 0).1 (onConnect storeUsers [] idA sid1 0).2.1
        idA sid2 1).2.1 = [(idA, sid2)] ∧
    userOnlineB (onDisconnect
        (onConnect (onConnect storeUsers [] idA sid1 0).1 (onConnect storeUsers [] idA sid1 0).2.1
          idA sid2 1).1
        (onConnect (onConnect storeUsers [] idA sid1 0).1 (onConnect storeUsers [] idA sid1 0).2.1
          idA sid2 1).2.1
        idA 2).1 idA = false ∧
    (onDisconnect
        (onConnect (onConnect storeUsers [] idA sid1 0).1 (onConnect storeUsers [] idA sid1 0).2.1
          idA sid2 1).1
        (onConnect (onConnect storeUsers [] idA sid1 0).1 (onConnect storeUsers [] idA sid1 0).2.1
          idA sid2 1).2.1
        idA 2).2.2 = [PresenceEvent.userOffline idA] := by
  refine ⟨by decide, by decide, by decide, by decide⟩

/-- C8 counterexample: a send whose receiver equals the sender is NOT
rejected: the self-send on a store holding only that user succeeds, creates
a chat whose two participants are both the sender, and persists the
message. -/
theorem self_chat_not_rejected :
    (sendMessage storeSolo idA idA helloTxt MessageType.text mid1 cid1 3).1 =
      SendOutcome.sent (mkMessage mid1 idA idA helloTxt MessageType.text cid1 3) ∧
    (sendMessage storeSolo idA idA helloTxt MessageType.text mid1 cid1 3).2.chats.length = 1 ∧
    (sendMessage storeSolo idA idA helloTxt MessageType.text mid1 cid1 3).2.chats.map
      (fun c => c.participants) = [[idA, idA]] ∧
    (sendMessage storeSolo idA idA helloTxt MessageType.text mid1 cid1 3).2.messages =
      [mkMessage mid1 idA idA helloTxt MessageType.text cid1 3] := by
  refine ⟨by decide, by decide, by decide, by decide⟩

lemma find_after_update (l : List Message) (mid : String) (m m' : Message)
    (hm' : (m'.id == mid) = true)
    (h : l.find? (fun x => x.id == mid) = some m) :
    (l.map (fun x => if x.id == mid then m' else x)).find? (fun x => x.id == mid) =
      some m' := by
  induction l with
  | nil => simp at h
  | cons x xs ih =>
    rw [List.map_cons]
    by_cases hx : (x.id == mid) = true
    · rw [if_pos hx,
        @List.find?_cons_of_pos Message (fun y => y.id == mid) m'
          (List.map (fun x => if x.id == mid then m' else x) xs) hm']
    · have hx' : (x.id == mid) = false := by simpa using hx
      rw [@List.find?_cons_of_neg Message (fun y => y.id == mid) x xs (by simpa using hx)] at h
      rw [if_neg hx,
        @List.find?_cons_of_neg Message (fun y => y.id == mid) x
          (List.map (fun x => if x.id == mid then m' else x) xs) (by simpa using hx)]
      exact ih h

lemma markRead_found (s : Store) (mid : String) (t : Nat) (m : Message)
    (h : findMessageById s.messages mid = some m) :
    markRead s mid t =
      (some { m with isRead := true, readAt := some t },
        { s with messages := s.messages.map (fun x => if x.id == mid then { m with isRead := true, readAt := some t } else x) }) := by
  unfold markRead
  rw [h]

lemma markRead_missing (s : Store) (mid : String) (t : Nat)
    (h : findMessageById s.messages mid = none) :
    markRead s mid t = (none, s) := by
  unfold markRead
  rw [h]

/-- C5 counterexample: marking `msgOne` read at time 1 and again at time 2
does NOT leave the state of the first call: `findByIdAndUpdate` overwrites
`readAt` with the current time unconditionally, so the second call moves the
read timestamp. -/
theorem mark_read_twice_changes_state :
    (markRead storeAB mid1 1).1 = some { msgOne with isRead := true, readAt := some 1 } ∧
    (markRead (markRead storeAB mid1 1).2 mid1 2).1 =
      some { msgOne with isRead := true, readAt := some 2 } ∧
    (markRead (markRead storeAB mid1 1).2 mid1 2).2 ≠ (markRead storeAB mid1 1).2 := by
  refine ⟨by decide, by decide, by decide⟩

/-- C5 as amended: `markRead` is last-write-wins — a repeated call leaves
exactly the state of a single call carrying the second invocation's
timestamp; in particular the double call at one and the same timestamp is a
no-op relative to the single call, and the read flag is stable.  The claimed
full idempotence holds only when the two invocations carry the same current
time, because `readAt` is overwritten unconditionally. -/
theorem mark_read_last_write_wins (s : Store) (mid : String) (t1 t2 : Nat) :
    markRead (markRead s mid t1).2 mid t2 = markRead s mid t2 ∧
    markRead (markRead s mid t1).2 mid t1 = markRead s mid t1 := by
  have key : ∀ u v : Nat, markRead (markRead s mid u).2 mid v = markRead s mid v := by
    intro u v
    cases h : findMessageById s.messages mid with
    | none =>
      rw [markRead_missing s mid u h]
    | some m =>
      have hm : (m.id == mid) = true := by
        unfold findMessageById at h
        have := List.find?_some h
        simpa using this
      have h2 : findMessageById
          (s.messages.map (fun x => if x.id == mid then { m with isRead := true, readAt := some u } else x)) mid =
          some { m with isRead := true, readAt := some u } :=
        find_after_update s.messages mid m _ hm h
      rw [markRead_found s mid u m h]
      dsimp only
      rw [markRead_found _ mid v _ h2, markRead_found s mid v m h]
      simp only [Prod.mk.injEq, Store.mk.injEq, true_and, and_true]
      rw [List.map_map]
      refine List.map_congr_left ?_
      intro x _
      by_cases hx : (x.id == mid) = true
      · simp [Function.comp, hx, hm]
      · simp [Function.comp, hx]
  exact ⟨key t1 t2, key t1 t1⟩

lemma find_user_update (users : List User) (uid : String) (online : Bool) (now : Nat) :
    (updateUserPresence users uid online now).find? (fun u => u.id == uid) =
      (users.find? (fun u => u.id == uid)).map
        (fun u => { u with isOnline := online, lastSeen := now }) := by
  induction users with
  | nil => simp [updateUserPresence]
  | cons x xs ih =>
    unfold updateUserPresence
    rw [List.map_cons]
    by_cases hx : (x.id == uid) = true
    · rw [if_pos hx,
        @List.find?_cons_of_pos User (fun u => u.id == uid)
          { x with isOnline := online, lastSeen := now }
          (List.map (fun u => if u.id == uid then { u with isOnline := online, lastSeen := now } else u) xs)
          (by simpa using hx),
        @List.find?_cons_of_pos User (fun u => u.id == uid) x xs hx]
      rfl
    · have hx' : (x.id == uid) = false := by simpa using hx
      rw [if_neg hx,
        @List.find?_cons_of_neg User (fun u => u.id == uid) x
          (List.map (fun u => if u.id == uid then { u with isOnline := online, lastSeen := now } else u) xs)
          (by simpa using hx),
        @List.find?_cons_of_neg User (fun u => u.id == uid) x xs (by simpa using hx)]
      exact ih

/-- C7 as amended: the presence registry is last-wins — `register` keeps at
most one tracked session per user (the count for a user never exceeds the
larger of its old value and one), and EVERY disconnect event for a user
unconditionally clears the online flag, empties the user's registry entry
and broadcasts `user_offline`, with no check for other live sessions. -/
theorem disconnect_unconditional_offline (s : Store) (reg : List (String × String))
    (uid sid : String) (now : Nat) :
    userOnlineB (onDisconnect s reg uid now).1 uid = false ∧
    (onDisconnect s reg uid now).2.2 = [PresenceEvent.userOffline uid] ∧
    ((onDisconnect s reg uid now).2.1).countP (fun p => p.1 == uid) = 0 ∧
    (mapSet reg uid sid).countP (fun p => p.1 == uid) =
      max (reg.countP (fun p => p.1 == uid)) 1 := by
  refine ⟨?_, rfl, ?_, ?_⟩
  · show userOnlineB { s with users := updateUserPresence s.users uid false now } uid = false
    unfold userOnlineB findUser
    show (match (updateUserPresence s.users uid false now).find? (fun u => u.id == uid) with
      | some u => u.isOnline
      | none => false) = false
    rw [find_user_update]
    cases s.users.find? (fun u => u.id == uid) with
    | none => rfl
    | some u => rfl
  · show (mapDelete reg uid).countP (fun p => p.1 == uid) = 0
    rw [List.countP_eq_zero]
    intro p hp
    have := List.mem_filter.mp hp
    simpa using this.2
  · unfold mapSet
    by_cases hany : reg.any (fun p => p.1 == uid) = true
    · rw [if_pos hany]
      have hcnt : (reg.map (fun p => if p.1 == uid then (uid, sid) else p)).countP
          (fun p => p.1 == uid) = reg.countP (fun p => p.1 == uid) := by
        rw [List.countP_map]
        apply List.countP_congr
        intro p _
        by_cases hp : (p.1 == uid) = true
        · simp [Function.comp, hp]
        · have hp' : (p.1 == uid) = false := by simpa using hp
          simp [Function.comp, hp']
      rw [hcnt]
      have hpos : 0 < reg.countP (fun p => p.1 == uid) := by
        rw [List.countP_pos_iff]
        obtain ⟨p, hp, hpp⟩ := List.any_eq_true.mp hany
        exact ⟨p, hp, hpp⟩
      omega
    · have hany' : reg.any (fun p => p.1 == uid) = false := by
        cases hb : reg.any (fun p => p.1 == uid) with
        | false => rfl
        | true => exact absurd hb hany
      rw [if_neg (by simp [hany'])]
      have hz : reg.countP (fun p => p.1 == uid) = 0 := by
        rw [List.countP_eq_zero]
        intro p hp
        have := List.any_eq_false.mp hany' p hp
        simpa using this
      rw [List.countP_append, hz]
      simp

lemma charListLe_refl (as : List Char) : charListLe as as = true := by
  induction as with
  | nil => rfl
  | cons a as ih => simpa [charListLe, Nat.lt_irrefl] using ih

lemma strLe_refl (a : String) : strLe a a = true := charListLe_refl a.data

/-- C4: only the original sender may delete a message.  A delete request by
any other requester fails with the authorization error and leaves the store
completely unchanged; when the requester is the sender, the message row is
hard-deleted. -/
theorem delete_sender_only_authorization (s : Store) (requester mid : String) (m : Message)
    (hm : findMessageById s.messages mid = some m) :
    (m.sender ≠ requester → deleteMessage s requester mid = (DeleteOutcome.notAuthorized, s)) ∧
    (m.sender = requester →
      (deleteMessage s requester mid).1 = DeleteOutcome.deleted ∧
      (deleteMessage s requester mid).2.messages = s.messages.eraseP (fun x => x.id == mid) ∧
      (deleteMessage s requester mid).2.users = s.users) := by
  constructor
  · intro hne
    have hb : (m.sender == requester) = false := by simpa using hne
    unfold deleteMessage
    rw [hm]
    simp [hb]
  · intro heq
    have hb : (m.sender == requester) = true := by simpa using heq
    unfold deleteMessage
    rw [hm]
    simp only [hb, Bool.not_true, Bool.false_eq_true, if_false]
    refine ⟨?_, ?_, ?_⟩ <;>
      · split
        · rfl
        · split
          · split
            · split <;> rfl
            · rfl
          · rfl

/-- C4 witness at a concrete input: `msgTwo` was sent by `idA`, so `idB` may
not delete it (the store is untouched) while `idA` may. -/
theorem delete_sender_only_authorization_witness :
    deleteMessage storeAB idB mid2 = (DeleteOutcome.notAuthorized, storeAB) ∧
    (deleteMessage storeAB idA mid2).1 = DeleteOutcome.deleted := by
  constructor
  · exact (delete_sender_only_authorization storeAB idB mid2 msgTwo (by decide)).1 (by decide)
  · exact ((delete_sender_only_authorization storeAB idA mid2 msgTwo (by decide)).2 (by decide)).1

/-- C10: chat resolution ignores the active flag.  When the pair's chat
exists but is inactive, a send still finds it by pair key: the message is
persisted with the inactive chat's identity, its last-message pointer and
timestamp are updated, no chat is added or removed, and the chat stays
inactive. -/
theorem send_ignores_inactive_flag (s : Store) (a b content : String) (mt : MessageType)
    (mid cid : String) (now : Nat) (u : User) (c : Chat)
    (hu : findUser s b = some u)
    (hc : findChatByKey s.chats (participantsKeyOf a b) = some c)
    (hinact : c.isActive = false) :
    sendMessage s a b content mt mid cid now =
      (SendOutcome.sent (mkMessage mid a b content mt c.id now),
        { s with
          messages := s.messages ++ [mkMessage mid a b content mt c.id now]
          chats := updateChat s.chats { c with lastMessage := some mid, lastMessageAt := some now } }) ∧
    ({ c with lastMessage := some mid, lastMessageAt := some now }).isActive = false ∧
    (updateChat s.chats { c with lastMessage := some mid, lastMessageAt := some now }).length =
      s.chats.length := by
  refine ⟨?_, by simpa using hinact, by simp [updateChat]⟩
  unfold sendMessage findOrCreateChat
  simp only [hu, hc]
  rfl

/-- C10 witness at a concrete input: the only chat of the pair is inactive
and the send goes through it. -/
theorem send_ignores_inactive_flag_witness :
    sendMessage storeInact idA idB helloTxt MessageType.text mid1 cid2 7 =
      (SendOutcome.sent (mkMessage mid1 idA idB helloTxt MessageType.text chatInact.id 7),
        { storeInact with
          messages := storeInact.messages ++ [mkMessage mid1 idA idB helloTxt MessageType.text chatInact.id 7]
          chats := updateChat storeInact.chats
            { chatInact with lastMessage := some mid1, lastMessageAt := some 7 } }) ∧
    ({ chatInact with lastMessage := some mid1, lastMessageAt := some 7 }).isActive = false ∧
    (updateChat storeInact.chats
      { chatInact with lastMessage := some mid1, lastMessageAt := some 7 }).length =
      storeInact.chats.length :=
  send_ignores_inactive_flag storeInact idA idB helloTxt MessageType.text mid1 cid2 7 uBob chatInact
    (by decide) (by decide) (by decide)

/-- C8 as amended: chat resolution validates the receiver — when the
receiver identity resolves to no user, the send path, the explicit-create
path and the upload path all reject without creating any chat or message —
but equal identities are NOT rejected: a send from a user to themself
resolves (or creates) a chat whose two participants are both that user and
persists the message into it. -/
theorem chat_resolution_receiver_validation (s : Store) (a b content : String)
    (mt : MessageType) (mid cid : String) (now : Nat) (file : Option UploadFile)
    (baseUrl : String) (s2 : Store) (a2 content2 mid2x cid2x : String) (mt2 : MessageType)
    (now2 : Nat)
    (hb : findUser s b = none)
    (ha2 : (findUser s2 a2).isSome = true)
    (hnokey : findChatByKey s2.chats (participantsKeyOf a2 a2) = none)
    (hnoid : findChatById s2.chats cid2x = none) :
    sendMessage s a b content mt mid cid now = (SendOutcome.receiverNotFound, s) ∧
    createChatRoute s a b cid now = (CreateOutcome.receiverNotFound, s) ∧
    (uploadMessage s a b file mid cid now baseUrl).2 = s ∧
    (sendMessage s2 a2 a2 content2 mt2 mid2x cid2x now2).1 =
      SendOutcome.sent (mkMessage mid2x a2 a2 content2 mt2 cid2x now2) ∧
    (sendMessage s2 a2 a2 content2 mt2 mid2x cid2x now2).2.messages =
      s2.messages ++ [mkMessage mid2x a2 a2 content2 mt2 cid2x now2] ∧
    { mkChat cid2x a2 a2 now2 with lastMessage := some mid2x, lastMessageAt := some now2 } ∈
      (sendMessage s2 a2 a2 content2 mt2 mid2x cid2x now2).2.chats ∧
    (mkChat cid2x a2 a2 now2).participants = [a2, a2] := by
  obtain ⟨u2, hu2⟩ := Option.isSome_iff_exists.mp ha2
  have hidany : s2.chats.any (fun x => x.id == (mkChat cid2x a2 a2 now2).id) = false := by
    rw [List.any_eq_false]
    intro x hx
    exact List.find?_eq_none.mp hnoid x hx
  have hkeyany :
      s2.chats.any (fun x => x.participantsKey == (mkChat cid2x a2 a2 now2).participantsKey) =
        false := by
    rw [List.any_eq_false]
    intro x hx
    exact List.find?_eq_none.mp hnokey x hx
  have hsend : sendMessage s2 a2 a2 content2 mt2 mid2x cid2x now2 =
      (SendOutcome.sent (mkMessage mid2x a2 a2 content2 mt2 cid2x now2),
        { s2 with
          messages := s2.messages ++ [mkMessage mid2x a2 a2 content2 mt2 cid2x now2]
          chats := updateChat (s2.chats ++ [mkChat cid2x a2 a2 now2])
            { mkChat cid2x a2 a2 now2 with
              lastMessage := some mid2x, lastMessageAt := some now2 } }) := by
    unfold sendMessage findOrCreateChat insertChat
    simp only [hu2, hnokey, hidany, hkeyany, Bool.false_eq_true, if_false]
    rfl
  refine ⟨by simp [sendMessage, hb], by simp [createChatRoute, hb], ?_, ?_, ?_, ?_, ?_⟩
  · unfold uploadMessage
    by_cases hbe : (b == emptyStr) = true
    · have : (b == "") = true := hbe
      simp [this]
    · have : (b == "") = false := by
        cases hq : (b == emptyStr) with
        | false => exact hq
        | true => exact absurd hq hbe
      simp [this, hb]
  · rw [hsend]
  · rw [hsend]
  · rw [hsend]
    refine List.mem_map.mpr ?_
    refine ⟨mkChat cid2x a2 a2 now2, List.mem_append_right _ (List.mem_singleton.mpr rfl), ?_⟩
    rw [if_pos (by simp)]
  · show sortedPair a2 a2 = [a2, a2]
    unfold sortedPair
    rw [if_pos (strLe_refl a2)]

/-- C8 witness at concrete inputs: `idZ` resolves to no user so all three
paths reject without touching the store, and the self-send of `idA` on
`storeSolo` persists a message into a chat whose participants are both
`idA`. -/
theorem chat_resolution_receiver_validation_witness :
    sendMessage storeUsers idA idZ helloTxt MessageType.text mid1 cid1 4 =
      (SendOutcome.receiverNotFound, storeUsers) ∧
    createChatRoute storeUsers idA idZ cid1 4 = (CreateOutcome.receiverNotFound, storeUsers) ∧
    (uploadMessage storeUsers idA idZ none mid1 cid1 4 emptyStr).2 = storeUsers ∧
    (sendMessage storeSolo idA idA helloTxt MessageType.text mid2 cid2 5).1 =
      SendOutcome.sent (mkMessage mid2 idA idA helloTxt MessageType.text cid2 5) ∧
    (sendMessage storeSolo idA idA helloTxt MessageType.text mid2 cid2 5).2.messages =
      storeSolo.messages ++ [mkMessage mid2 idA idA helloTxt MessageType.text cid2 5] ∧
    { mkChat cid2 idA idA 5 with lastMessage := some mid2, lastMessageAt := some 5 } ∈
      (sendMessage storeSolo idA idA helloTxt MessageType.text mid2 cid2 5).2.chats ∧
    (mkChat cid2 idA idA 5).participants = [idA, idA] :=
  chat_resolution_receiver_validation storeUsers idA idZ helloTxt MessageType.text mid1 cid1 4
    none emptyStr storeSolo idA helloTxt mid2 cid2 MessageType.text 5
    (by decide) (by decide) (by decide) (by decide)

lemma insertChat_ok (s : Store) (c : Chat) (s1 : Store)
    (h : insertChat s c = Except.ok s1) :
    s1 = { s with chats := s.chats ++ [c] } ∧
    s.chats.any (fun x => x.id == c.id) = false ∧
    s.chats.any (fun x => x.participantsKey == c.participantsKey) = false := by
  unfold insertChat at h
  split at h
  · cases h
  · split at h
    · cases h
    · cases h
      rename_i h1 h2
      refine ⟨rfl, ?_, ?_⟩
      · cases hb : s.chats.any (fun x => x.id == c.id) with
        | false => rfl
        | true => exact absurd hb h1
      · cases hb : s.chats.any (fun x => x.participantsKey == c.participantsKey) with
        | false => rfl
        | true => exact absurd hb h2

lemma chatsOk_append (l : List Chat) (c : Chat)
    (hid : l.any (fun x => x.id == c.id) = false)
    (hkey : l.any (fun x => x.participantsKey == c.participantsKey) = false)
    (hnd : chatIdsOk l) (hpw : chatKeysOk l) :
    chatIdsOk (l ++ [c]) ∧ chatKeysOk (l ++ [c]) := by
  constructor
  · show ((l ++ [c]).map (fun x => x.id)).Nodup
    rw [List.map_append, List.nodup_append]
    refine ⟨hnd, List.nodup_singleton _, ?_⟩
    intro a ha hb
    obtain ⟨x, hx, hxa⟩ := List.mem_map.mp ha
    have hbc : a = c.id := by simpa using hb
    have hfalse := List.any_eq_false.mp hid x hx
    apply hfalse
    simp [hxa, hbc]
  · show chatKeysOk (l ++ [c])
    rw [chatKeysOk, List.pairwise_append]
    refine ⟨hpw, List.pairwise_singleton _ _, ?_⟩
    intro x hx y hy
    have hyc : y = c := by simpa using hy
    subst hyc
    intro _ _
    have hfalse := List.any_eq_false.mp hkey x hx
    simpa using hfalse

lemma chatsOk_updateChat (l : List Chat) (chat c' : Chat) (hc : chat ∈ l)
    (hid : c'.id = chat.id) (hkey : c'.participantsKey = chat.participantsKey)
    (hact : c'.isActive = chat.isActive)
    (hnd : chatIdsOk l) (hpw : chatKeysOk l) :
    chatIdsOk (updateChat l c') ∧ chatKeysOk (updateChat l c') := by
  have hidmap : ∀ x : Chat, ((if x.id == c'.id then c' else x).id = x.id) := by
    intro x
    by_cases hx : (x.id == c'.id) = true
    · rw [if_pos hx]
      have hxe : x.id = c'.id := by simpa using hx
      rw [hxe]
    · rw [if_neg hx]
  have huniq : ∀ x ∈ l, x.id = c'.id → x = chat := by
    intro x hx hxid
    exact List.inj_on_of_nodup_map hnd hx hc (by rw [hxid, hid])
  constructor
  · show ((updateChat l c').map (fun x => x.id)).Nodup
    unfold updateChat
    rw [List.map_map]
    have hfun : ((fun x : Chat => x.id) ∘ fun x => if x.id == c'.id then c' else x) =
        fun x : Chat => x.id := by
      funext x
      exact hidmap x
    rw [hfun]
    exact hnd
  · show chatKeysOk (updateChat l c')
    unfold updateChat
    rw [chatKeysOk, List.pairwise_map]
    refine List.Pairwise.imp_of_mem ?_ hpw
    intro x y hx hy hxy
    by_cases hxeq : (x.id == c'.id) = true
    · have hxc : x = chat := huniq x hx (by simpa using hxeq)
      rw [if_pos hxeq]
      by_cases hyeq : (y.id == c'.id) = true
      · have hyc : y = chat := huniq y hy (by simpa using hyeq)
        rw [if_pos hyeq]
        intro hca _
        have hchat : chat.isActive = true := by rw [← hact]; exact hca
        have : x.participantsKey ≠ y.participantsKey := by
          apply hxy
          · rw [hxc]; exact hchat
          · rw [hyc]; exact hchat
        rw [hxc, hyc] at this
        exact absurd rfl this
      · rw [if_neg hyeq]
        intro hca hya
        have hchat : chat.isActive = true := by rw [← hact]; exact hca
        have hxkey : x.participantsKey ≠ y.participantsKey := by
          apply hxy
          · rw [hxc]; exact hchat
          · exact hya
        rw [hkey, ← hxc]
        exact hxkey
    · rw [if_neg hxeq]
      by_cases hyeq : (y.id == c'.id) = true
      · have hyc : y = chat := huniq y hy (by simpa using hyeq)
        rw [if_pos hyeq]
        intro hxa hca
        have hchat : chat.isActive = true := by rw [← hact]; exact hca
        have hxkey : x.participantsKey ≠ y.participantsKey := by
          apply hxy
          · exact hxa
          · rw [hyc]; exact hchat
        rw [hkey, ← hyc]
        exact hxkey
      · rw [if_neg hyeq]
        exact hxy

lemma deactivate_head_id (c : Chat) (ids : List String) :
    (if ids.contains c.id then { c with isActive := false } else c).id = c.id := by
  by_cases hx : ids.contains c.id = true
  · rw [if_pos hx]
  · rw [if_neg hx]

lemma deactivate_head_key (c : Chat) (ids : List String) :
    (if ids.contains c.id then { c with isActive := false } else c).participantsKey =
      c.participantsKey := by
  by_cases hx : ids.contains c.id = true
  · rw [if_pos hx]
  · rw [if_neg hx]

lemma deactivate_head_act (c : Chat) (ids : List String)
    (h : (if ids.contains c.id then { c with isActive := false } else c).isActive = true) :
    c.isActive = true := by
  by_cases hx : ids.contains c.id = true
  · rw [if_pos hx] at h
    cases h
  · rwa [if_neg hx] at h

lemma chatsOk_deactivate (l : List Chat) (ids : List String)
    (hnd : chatIdsOk l) (hpw : chatKeysOk l) :
    chatIdsOk (deactivateChats l ids) ∧ chatKeysOk (deactivateChats l ids) := by
  constructor
  · show ((deactivateChats l ids).map (fun x => x.id)).Nodup
    unfold deactivateChats
    rw [List.map_map]
    have hfun : ((fun x : Chat => x.id) ∘
        fun c => if ids.contains c.id then { c with isActive := false } else c) =
        fun x : Chat => x.id := by
      funext x
      exact deactivate_head_id x ids
    rw [hfun]
    exact hnd
  · show chatKeysOk (deactivateChats l ids)
    unfold deactivateChats
    rw [chatKeysOk, List.pairwise_map]
    refine hpw.imp ?_
    intro a b hab h1 h2
    rw [deactivate_head_key, deactivate_head_key]
    exact hab (deactivate_head_act a ids h1) (deactivate_head_act b ids h2)

lemma findOrCreateChat_ok (s : Store) (a b cid : String) (now : Nat) (chat : Chat) (s1 : Store)
    (h : findOrCreateChat s a b cid now = Except.ok (chat, s1)) (hok : StoreOk s) :
    StoreOk s1 ∧ chat ∈ s1.chats := by
  unfold findOrCreateChat at h
  dsimp only at h
  split at h
  · rename_i c0 heq
    cases h
    exact ⟨hok, List.mem_of_find?_eq_some heq⟩
  · split at h
    · rename_i s2 hins
      cases h
      obtain ⟨hs2, hid, hkey⟩ := insertChat_ok s (mkChat cid a b now) _ hins
      subst hs2
      refine ⟨?_, List.mem_append_right _ (List.mem_singleton.mpr rfl)⟩
      exact chatsOk_append s.chats (mkChat cid a b now) hid hkey hok.1 hok.2
    · split at h
      · simp at h
      · cases h

lemma storeOk_sendMessage (s : Store) (a b content : String) (mt : MessageType)
    (mid cid : String) (now : Nat) (hok : StoreOk s) :
    StoreOk (sendMessage s a b content mt mid cid now).2 := by
  unfold sendMessage
  split
  · exact hok
  · split
    · exact hok
    · rename_i chat s1 hres
      obtain ⟨hs1, hchat⟩ := findOrCreateChat_ok s a b cid now chat s1 hres hok
      exact chatsOk_updateChat s1.chats chat
        { chat with lastMessage := some mid, lastMessageAt := some now }
        hchat rfl rfl rfl hs1.1 hs1.2

lemma storeOk_uploadMessage (s : Store) (a b : String) (file : Option UploadFile)
    (mid cid : String) (now : Nat) (baseUrl : String) (hok : StoreOk s) :
    StoreOk (uploadMessage s a b file mid cid now baseUrl).2 := by
  unfold uploadMessage
  split
  · exact hok
  · split
    · exact hok
    · split
      · exact hok
      · rename_i chat s1 hres
        obtain ⟨hs1, hchat⟩ := findOrCreateChat_ok s a b cid now chat s1 hres hok
        split
        · exact hs1
        · exact chatsOk_updateChat s1.chats chat
            { chat with lastMessage := some mid, lastMessageAt := some now }
            hchat rfl rfl rfl hs1.1 hs1.2

lemma createChatFinish_store (s : Store) (a : String) (chat : Chat) (st : Store) :
    (createChatFinish s a chat st).2 = st := by
  unfold createChatFinish
  split
  · rfl
  · split <;> rfl

lemma storeOk_createChatRoute (s : Store) (a b cid : String) (now : Nat) (hok : StoreOk s) :
    StoreOk (createChatRoute s a b cid now).2 := by
  unfold createChatRoute
  dsimp only
  split
  · exact hok
  · split
    · rw [createChatFinish_store]
      exact hok
    · split
      · rename_i s1 hins
        rw [createChatFinish_store]
        obtain ⟨hs1, hid, hkey⟩ := insertChat_ok s (mkChat cid a b now) _ hins
        subst hs1
        exact chatsOk_append s.chats (mkChat cid a b now) hid hkey hok.1 hok.2
      · split
        · split
          · rw [createChatFinish_store]
            exact hok
          · exact hok
        · exact hok

lemma storeOk_deleteMessage (s : Store) (requester mid : String) (hok : StoreOk s) :
    StoreOk (deleteMessage s requester mid).2 := by
  unfold deleteMessage
  dsimp only
  split
  · exact hok
  · split
    · exact hok
    · split
      · exact hok
      · rename_i chat hchat
        split
        · rename_i lm hlm
          split
          · exact chatsOk_updateChat _ chat _ (List.mem_of_find?_eq_some hchat)
              (by split <;> rfl) (by split <;> rfl) (by split <;> rfl) hok.1 hok.2
          · exact hok
        · exact hok

lemma storeOk_markRead (s : Store) (mid : String) (now : Nat) (hok : StoreOk s) :
    StoreOk (markRead s mid now).2 := by
  unfold markRead
  split
  · exact hok
  · exact hok

lemma storeOk_cleanup (s : Store) (hok : StoreOk s) : StoreOk (cleanup s) := by
  unfold cleanup
  exact chatsOk_deactivate s.chats _ hok.1 hok.2

/-- One operation preserves the reachable-store well-formedness. -/
lemma storeOk_applyOp (s : Store) (op : StoreOp) (hok : StoreOk s) :
    StoreOk (applyOp s op) := by
  cases op with
  | opSend a b content mt mid cid now => exact storeOk_sendMessage s a b content mt mid cid now hok
  | opUpload a b file mid cid now baseUrl =>
    exact storeOk_uploadMessage s a b file mid cid now baseUrl hok
  | opCreate a b cid now => exact storeOk_createChatRoute s a b cid now hok
  | opDelete requester mid => exact storeOk_deleteMessage s requester mid hok
  | opMarkRead mid now => exact storeOk_markRead s mid now hok
  | opCleanup => exact storeOk_cleanup s hok
  | opDeactivate ids => exact chatsOk_deactivate s.chats ids hok.1 hok.2

/-- C1: in a well-formed store (distinct chat ids, at most one active chat
per pair key — the state the unique index on `participantsKey` guarantees),
NO sequence of backend operations — socket send, REST send, file upload,
explicit create, delete, mark-read, the cleanup sweep, or the chat-list
background deactivation — can produce two active chats with the same pair
key: every chat-creation path either finds the existing chat by pair key or
inserts under the unique index. -/
theorem chat_pair_key_active_unique (s : Store) (ops : List StoreOp) (hok : StoreOk s) :
    chatKeysOk (applyOps s ops).chats ∧ chatIdsOk (applyOps s ops).chats := by
  have hall : StoreOk (applyOps s ops) := by
    induction ops generalizing s with
    | nil => exact hok
    | cons op ops ih => exact ih (applyOp s op) (storeOk_applyOp s op hok)
  exact ⟨hall.2, hall.1⟩

/-- C1 witness: starting from a store with two users and no chats, a socket
send, an explicit create for the same pair in the opposite order, a second
send, and a cleanup run leave at most one active chat per pair key. -/
theorem chat_pair_key_active_unique_witness :
    chatKeysOk (applyOps storeUsers
      [StoreOp.opSend idA idB helloTxt MessageType.text mid1 cid1 1,
       StoreOp.opCreate idB idA cid2 2,
       StoreOp.opSend idB idA helloTxt MessageType.text mid2 cid2 3,
       StoreOp.opCleanup]).chats ∧
    chatIdsOk (applyOps storeUsers
      [StoreOp.opSend idA idB helloTxt MessageType.text mid1 cid1 1,
       StoreOp.opCreate idB idA cid2 2,
       StoreOp.opSend idB idA helloTxt MessageType.text mid2 cid2 3,
       StoreOp.opCleanup]).chats :=
  chat_pair_key_active_unique storeUsers
    [StoreOp.opSend idA idB helloTxt MessageType.text mid1 cid1 1,
     StoreOp.opCreate idB idA cid2 2,
     StoreOp.opSend idB idA helloTxt MessageType.text mid2 cid2 3,
     StoreOp.opCleanup] (by decide)

lemma contains_single (x y : String) : [x].contains y = (y == x) := by
  cases h : y == x <;> simp [List.contains, h] <;> simpa using h

lemma reassign_single (msgs : List Message) (d k : String) :
    reassignMessages msgs [(d, k)] =
      msgs.map (fun m => if d == m.chatId then { m with chatId := k } else m) := by
  unfold reassignMessages
  refine List.map_congr_left ?_
  intro m _
  by_cases hp : (d == m.chatId) = true
  · rw [@List.find?_cons_of_pos (String × String) (fun pr => pr.1 == m.chatId) (d, k) [] hp]
    rw [if_pos hp]
  · rw [@List.find?_cons_of_neg (String × String) (fun pr => pr.1 == m.chatId) (d, k) [] hp]
    rw [if_neg hp]
    rfl

lemma reassign_nil (msgs : List Message) : reassignMessages msgs [] = msgs := by
  unfold reassignMessages
  simp

lemma deactivate_nil (l : List Chat) : deactivateChats l [] = l := by
  unfold deactivateChats
  simp

/-- C9: the reconciliation sweep on a store holding exactly two active chats
with one shared pair key (both with resolvable participants, distinct ids)
keeps the chat with the most recent activity time (`lastMessageAt`, falling
back to `createdAt`; the earlier-stored chat wins ties), reassigns every
message of the other chat to the kept chat, deactivates the other chat and
leaves users untouched; running the sweep again on the result changes
nothing. -/
theorem cleanup_merges_duplicate_pair (s : Store) (c1 c2 keep dup : Chat)
    (hchats : s.chats = [c1, c2])
    (h1a : c1.isActive = true) (h2a : c2.isActive = true)
    (hkey : c1.participantsKey = c2.participantsKey)
    (ho1 : isOrphan s c1 = false) (ho2 : isOrphan s c2 = false)
    (hid : c1.id ≠ c2.id)
    (hkeep : keep = if chatSortTime c1 < chatSortTime c2 then c2 else c1)
    (hdup : dup = if chatSortTime c1 < chatSortTime c2 then c1 else c2) :
    chatSortTime dup ≤ chatSortTime keep ∧
    (cleanup s).users = s.users ∧
    (cleanup s).messages =
      s.messages.map (fun m => if dup.id == m.chatId then { m with chatId := keep.id } else m) ∧
    (cleanup s).chats =
      [if c1.id == dup.id then { c1 with isActive := false } else c1,
       if c2.id == dup.id then { c2 with isActive := false } else c2] ∧
    keep ∈ (cleanup s).chats ∧
    { dup with isActive := false } ∈ (cleanup s).chats ∧
    cleanup (cleanup s) = cleanup s := by
  have hfA : [c1, c2].filter (fun c => c.isActive) = [c1, c2] := by
    simp [h1a, h2a]
  have hfO : [c1, c2].filter (isOrphan s) = [] := by
    simp [ho1, ho2]
  have hfG : [c1, c2].filter (fun c => !(isOrphan s c)) = [c1, c2] := by
    simp [ho1, ho2]
  have hkeys : keysInOrder [c1, c2] = [c2.participantsKey] := by
    unfold keysInOrder
    simp only [List.foldl_cons, List.foldl_nil]
    unfold insertKey
    simp [hkey]
  have hfK : [c1, c2].filter (fun c => c.participantsKey == c2.participantsKey) = [c1, c2] := by
    simp [hkey]
  have hsort : sortChatsDesc [c1, c2] =
      if chatSortTime c1 < chatSortTime c2 then [c2, c1] else [c1, c2] := by
    unfold sortChatsDesc
    simp only [List.foldl_cons, List.foldl_nil]
    rw [show insertByTime c1 [] = [c1] from rfl]
    by_cases hlt : chatSortTime c1 < chatSortTime c2
    · rw [if_pos hlt]
      show insertByTime c2 [c1] = [c2, c1]
      unfold insertByTime
      rw [if_pos hlt]
    · rw [if_neg hlt]
      show insertByTime c2 [c1] = [c1, c2]
      unfold insertByTime
      rw [if_neg hlt]
      rfl
  have hne11 : (c1.id == c1.id) = true := by simp
  have hne22 : (c2.id == c2.id) = true := by simp
  have hne21 : (c2.id == c1.id) = false := by
    have h2 := Ne.symm hid
    simpa using h2
  have hne12 : (c1.id == c2.id) = false := by simpa using hid
  by_cases hlt : chatSortTime c1 < chatSortTime c2
  · rw [if_pos hlt] at hkeep hdup
    rw [hkeep, hdup]
    have hprs : dupPairsOf [c1, c2] = [(c1.id, c2.id)] := by
      unfold dupPairsOf
      rw [hkeys]
      simp only [List.foldl_cons, List.foldl_nil]
      rw [hfK]
      rw [if_pos (by simp : 1 < ([c1, c2] : List Chat).length)]
      rw [hsort, if_pos hlt]
      rfl
    have hcl : cleanup s = { s with
        messages := reassignMessages s.messages [(c1.id, c2.id)]
        chats := deactivateChats [c1, c2] [c1.id] } := by
      unfold cleanup
      rw [hchats]
      dsimp only
      rw [hfA, hfO, hfG, hprs]
      rfl
    have hL : deactivateChats [c1, c2] [c1.id] = [{ c1 with isActive := false }, c2] := by
      unfold deactivateChats
      simp only [List.map_cons, List.map_nil, contains_single]
      rw [if_pos hne11, if_neg (by simp [hne21])]
    refine ⟨Nat.le_of_lt hlt, by rw [hcl], ?_, ?_, ?_, ?_, ?_⟩
    · rw [hcl]
      exact reassign_single s.messages c1.id c2.id
    · rw [hcl, hL]
      rw [if_pos hne11, if_neg (by simp [hne21])]
    · rw [hcl, hL]
      exact List.mem_cons_of_mem _ (List.mem_singleton.mpr rfl)
    · rw [hcl, hL]
      exact List.mem_cons_self _ _
    · rw [hcl, hL]
      have hOS : ∀ c : Chat, isOrphan { s with
          messages := reassignMessages s.messages [(c1.id, c2.id)]
          chats := [{ c1 with isActive := false }, c2] } c = isOrphan s c := by
        intro c
        rfl
      unfold cleanup
      dsimp only
      rw [show ([{ c1 with isActive := false }, c2].filter (fun c => c.isActive)) = [c2] by
        simp [h2a]]
      rw [show ([c2].filter (isOrphan { s with
          messages := reassignMessages s.messages [(c1.id, c2.id)]
          chats := [{ c1 with isActive := false }, c2] })) = [] by simp [hOS, ho2]]
      rw [show ([c2].filter (fun c => !(isOrphan { s with
          messages := reassignMessages s.messages [(c1.id, c2.id)]
          chats := [{ c1 with isActive := false }, c2] } c))) = [c2] by simp [hOS, ho2]]
      rw [show dupPairsOf [c2] = [] by
        unfold dupPairsOf keysInOrder insertKey
        simp]
      simp only [List.map_nil, List.nil_append]
      rw [reassign_nil, deactivate_nil]
  · rw [if_neg hlt] at hkeep hdup
    rw [hkeep, hdup]
    have hprs : dupPairsOf [c1, c2] = [(c2.id, c1.id)] := by
      unfold dupPairsOf
      rw [hkeys]
      simp only [List.foldl_cons, List.foldl_nil]
      rw [hfK]
      rw [if_pos (by simp : 1 < ([c1, c2] : List Chat).length)]
      rw [hsort, if_neg hlt]
      rfl
    have hcl : cleanup s = { s with
        messages := reassignMessages s.messages [(c2.id, c1.id)]
        chats := deactivateChats [c1, c2] [c2.id] } := by
      unfold cleanup
      rw [hchats]
      dsimp only
      rw [hfA, hfO, hfG, hprs]
      rfl
    have hL : deactivateChats [c1, c2] [c2.id] = [c1, { c2 with isActive := false }] := by
      unfold deactivateChats
      simp only [List.map_cons, List.map_nil, contains_single]
      rw [if_neg (by simp [hne12]), if_pos hne22]
    refine ⟨Nat.le_of_not_lt hlt, by rw [hcl], ?_, ?_, ?_, ?_, ?_⟩
    · rw [hcl]
      exact reassign_single s.messages c2.id c1.id
    · rw [hcl, hL]
      rw [if_neg (by simp [hne12]), if_pos hne22]
    · rw [hcl, hL]
      exact List.mem_cons_self _ _
    · rw [hcl, hL]
      exact List.mem_cons_of_mem _ (List.mem_singleton.mpr rfl)
    · rw [hcl, hL]
      have hOS : ∀ c : Chat, isOrphan { s with
          messages := reassignMessages s.messages [(c2.id, c1.id)]
          chats := [c1, { c2 with isActive := false }] } c = isOrphan s c := by
        intro c
        rfl
      unfold cleanup
      dsimp only
      rw [show ([c1, { c2 with isActive := false }].filter (fun c => c.isActive)) = [c1] by
        simp [h1a]]
      rw [show ([c1].filter (isOrphan { s with
          messages := reassignMessages s.messages [(c2.id, c1.id)]
          chats := [c1, { c2 with isActive := false }] })) = [] by simp [hOS, ho1]]
      rw [show ([c1].filter (fun c => !(isOrphan { s with
          messages := reassignMessages s.messages [(c2.id, c1.id)]
          chats := [c1, { c2 with isActive := false }] } c))) = [c1] by simp [hOS, ho1]]
      rw [show dupPairsOf [c1] = [] by
        unfold dupPairsOf keysInOrder insertKey
        simp]
      simp only [List.map_nil, List.nil_append]
      rw [reassign_nil, deactivate_nil]

/-- C9 witness at a concrete input: `storeDup` holds the legacy duplicates
`chatDupOld` (last active at 5) and `chatDupNew` (last active at 9) with one
pair key; the sweep keeps `chatDupNew`, repoints `chatDupOld`'s message,
deactivates `chatDupOld`, and is a no-op the second time. -/
theorem cleanup_merges_duplicate_pair_witness :
    chatSortTime chatDupOld ≤ chatSortTime chatDupNew ∧
    (cleanup storeDup).users = storeDup.users ∧
    (cleanup storeDup).messages =
      storeDup.messages.map
        (fun m => if chatDupOld.id == m.chatId then { m with chatId := chatDupNew.id } else m) ∧
    (cleanup storeDup).chats =
      [if chatDupOld.id == chatDupOld.id then { chatDupOld with isActive := false } else chatDupOld,
       if chatDupNew.id == chatDupOld.id then { chatDupNew with isActive := false } else chatDupNew] ∧
    chatDupNew ∈ (cleanup storeDup).chats ∧
    { chatDupOld with isActive := false } ∈ (cleanup storeDup).chats ∧
    cleanup (cleanup storeDup) = cleanup storeDup :=
  cleanup_merges_duplicate_pair storeDup chatDupOld chatDupNew chatDupNew chatDupOld
    (by decide) (by decide) (by decide) (by decide) (by decide) (by decide) (by decide)
    (by decide) (by decide)
